import Mathlib

/-!
Shallow embedding of the Zilliqa validation core
(`src/libValidator/Validator.cpp`): the block co-signature check, the
directory-block walker, the transaction-block walker and the two
transaction admission checks, together with theorems about them.

External collaborators of the validator (Schnorr/MultiSig primitives,
committee mutation rules, serializers, the sharding-structure hasher and
the account store) are not part of the verified sources; they are passed
in as explicit function parameters, so every theorem quantifies over
them.  Bytes, public keys, peers, hashes and signatures are abstract and
modelled as natural numbers.
-/

namespace ZilliqaValidator

abbrev Byte := Nat
abbrev PubKey := Nat
abbrev Peer := Nat
abbrev Hash := Nat
abbrev Sig := Nat

/-- Modelled from the spec: `ConsensusCommon::NumForConsensus` is not among
the sources under verification; the spec fixes the protocol threshold as
`threshold(n) = ⌈2n/3⌉ + 1`, which over naturals is `(2n + 2) / 3 + 1`. -/
def NumForConsensus (n : Nat) : Nat := (2 * n + 2) / 3 + 1

/-- MSB-first packing of a list of at most eight bits into one byte. -/
def bitsToByte (bits : List Bool) : Byte :=
  bits.foldl (fun acc b => 2 * acc + (if b then 1 else 0)) 0

/-- Modelled from the spec: `BitVector::SetBitVector` is not among the
sources; the spec fixes the payload as the bits packed MSB first, eight per
byte, the final byte zero padded. -/
def bytesOfBits : List Bool → List Byte
  | [] => []
  | b :: rest =>
    let first8 := b :: rest.take 7
    bitsToByte (first8 ++ List.replicate (8 - first8.length) false) ::
      bytesOfBits (rest.drop 7)
termination_by l => l.length
decreasing_by
  simp only [List.length_drop, List.length_cons]
  omega

/-- Modelled from the spec: the bit-vector wire encoding is a two byte big
endian count of bits followed by the packed bits. -/
def encodeBitmap (bits : List Bool) : List Byte :=
  bits.length / 256 % 256 :: bits.length % 256 :: bytesOfBits bits

/-- The co-signature envelope every Zilliqa block carries.  `headerBytes`
and `cs1Bytes` stand for the externally produced serializations of the
block header and of the first-round aggregate signature CS1. -/
structure CoSigData where
  headerBytes : List Byte
  cs1Bytes : List Byte
  B1 : List Bool
  B2 : List Bool
  CS2 : Sig
deriving DecidableEq

/-- The canonical co-signed buffer of `Validator::CheckBlockCosignature`:
`serialize(header) ++ serialize(CS1) ++ encode_bitmap(B1)`. -/
def cosigMessage (c : CoSigData) : List Byte :=
  c.headerBytes ++ c.cs1Bytes ++ encodeBitmap c.B1

/-- The keys picked out at the positions where the round-two bitmap is
set, mirroring the selection loop of `Validator::CheckBlockCosignature`
(`keys.emplace_back(get<PubKey>(kv))` whenever `B2.at(index)`). -/
def selectKeys : List (PubKey × Peer) → List Bool → List PubKey
  | kv :: kvs, b :: bs =>
      if b then kv.1 :: selectKeys kvs bs else selectKeys kvs bs
  | _, _ => []

/-- `Validator::CheckBlockCosignature`.  `multiSigVerify` stands for
`MultiSig::MultiSigVerify` and `aggregatePubKeys` for
`MultiSig::AggregatePubKeys` (returning `none` where the C++ returns a
null pointer). -/
def checkBlockCosignature (multiSigVerify : List Byte → Sig → PubKey → Bool)
    (aggregatePubKeys : List PubKey → Option PubKey)
    (block : CoSigData) (commKeys : List (PubKey × Peer)) : Bool :=
  if commKeys.length ≠ block.B2.length then false
  else
    let keys := selectKeys commKeys block.B2
    if keys.length ≠ NumForConsensus block.B2.length then false
    else
      match aggregatePubKeys keys with
      | none => false
      | some aggregatedKey =>
          multiSigVerify (cosigMessage block) block.CS2 aggregatedKey

/-- The directory-service block fields `Validator::CheckDirBlocks` reads. -/
structure DSBlockM where
  blockNum : Nat
  shardingHash : Hash
  blockHash : Hash
  cosig : CoSigData
deriving DecidableEq

/-- The view-change block fields `Validator::CheckDirBlocks` reads. -/
structure VCBlockM where
  viewChangeDSEpochNo : Nat
  blockHash : Hash
  cosig : CoSigData
deriving DecidableEq

/-- The fallback block fields `Validator::CheckDirBlocks` reads. -/
structure FallbackBlockM where
  fallbackDSEpochNo : Nat
  shardId : Nat
  leaderPubKey : PubKey
  leaderNetworkInfo : Peer
  blockHash : Hash
  cosig : CoSigData
deriving DecidableEq

/-- A shard committee: entries of the sharding structure, each carrying a
public key and a network identity (the C++ tuple's reward field is never
read by the validator). -/
abbrev Shard := List (PubKey × Peer)

/-- `FallbackBlockWShardingStructure`: a fallback block bundled with the
sharding structure it claims to operate under. -/
structure FallbackBlockWShardingStructureM where
  fallbackblock : FallbackBlockM
  shards : List Shard
deriving DecidableEq

/-- The three-variant directory block
(`boost::variant<DSBlock, VCBlock, FallbackBlockWShardingStructure>`). -/
inductive DirBlock where
  | DS (b : DSBlockM)
  | VC (b : VCBlockM)
  | FB (b : FallbackBlockWShardingStructureM)
deriving DecidableEq

/-- The tag stored in a block link (`BlockType`). -/
inductive BlockType where
  | DS
  | VC
  | FB
  | TX
deriving DecidableEq

/-- One side effect committed by `Validator::CheckDirBlocks` as it walks:
a block-link append, a DS chain append, or a persistence write. -/
inductive SideEffect where
  | addBlockLink (totalIndex : Nat) (dsEpoch : Nat) (kind : BlockType) (h : Hash)
  | addDSBlockToChain (b : DSBlockM)
  | putDSBlock (num : Nat) (bytes : List Byte)
  | putVCBlock (h : Hash) (bytes : List Byte)
  | putFallbackBlock (h : Hash) (bytes : List Byte)
deriving DecidableEq

/-- The external collaborators `Validator::CheckDirBlocks` calls out to:
the MultiSig primitives, the three committee mutation rules, the
sharding-structure hasher (`none` where `Messenger` returns false) and the
block serializers. -/
structure Collaborators where
  multiSigVerify : List Byte → Sig → PubKey → Bool
  aggregatePubKeys : List PubKey → Option PubKey
  updateDSCommitteeComposition : List (PubKey × Peer) → DSBlockM → List (PubKey × Peer)
  updateDSCommitteeAfterVC : VCBlockM → List (PubKey × Peer) → List (PubKey × Peer)
  updateDSCommitteeAfterFallback :
    Nat → PubKey → Peer → List (PubKey × Peer) → List Shard → List (PubKey × Peer)
  getShardingStructureHash : List Shard → Option Hash
  serializeDS : DSBlockM → List Byte
  serializeVC : VCBlockM → List Byte
  serializeFB : FallbackBlockWShardingStructureM → List Byte

/-- The walker's mutable state: the evolving committee, the tracked DS
block number and sharding hash, the running block-link index, and the
ordered log of side effects committed so far. -/
structure WalkState where
  dsComm : List (PubKey × Peer)
  prevdsblocknum : Nat
  totalIndex : Nat
  prevShardingHash : Hash
  sideEffects : List SideEffect
deriving DecidableEq

/-- The DS-block arm of the walk loop in `Validator::CheckDirBlocks`:
sequence check, co-signature against the current committee, then the side
effects and the committee evolution.  `none` means the walk fails at this
block with nothing of it committed. -/
def processDS (C : Collaborators) (dsblock : DSBlockM) (st : WalkState) :
    Option WalkState :=
  if dsblock.blockNum ≠ st.prevdsblocknum + 1 then none
  else if ¬ checkBlockCosignature C.multiSigVerify C.aggregatePubKeys
      dsblock.cosig st.dsComm then none
  else
    some { dsComm := C.updateDSCommitteeComposition st.dsComm dsblock
           prevdsblocknum := st.prevdsblocknum + 1
           totalIndex := st.totalIndex + 1
           prevShardingHash := dsblock.shardingHash
           sideEffects := st.sideEffects ++
             [SideEffect.addBlockLink st.totalIndex (st.prevdsblocknum + 1)
                BlockType.DS dsblock.blockHash,
              SideEffect.addDSBlockToChain dsblock,
              SideEffect.putDSBlock dsblock.blockNum (C.serializeDS dsblock)] }

/-- The VC-block arm of the walk loop in `Validator::CheckDirBlocks`. -/
def processVC (C : Collaborators) (vcblock : VCBlockM) (st : WalkState) :
    Option WalkState :=
  if vcblock.viewChangeDSEpochNo ≠ st.prevdsblocknum + 1 then none
  else if ¬ checkBlockCosignature C.multiSigVerify C.aggregatePubKeys
      vcblock.cosig st.dsComm then none
  else
    some { dsComm := C.updateDSCommitteeAfterVC vcblock st.dsComm
           prevdsblocknum := st.prevdsblocknum
           totalIndex := st.totalIndex + 1
           prevShardingHash := st.prevShardingHash
           sideEffects := st.sideEffects ++
             [SideEffect.addBlockLink st.totalIndex (st.prevdsblocknum + 1)
                BlockType.VC vcblock.blockHash,
              SideEffect.putVCBlock vcblock.blockHash (C.serializeVC vcblock)] }

/-- The fallback arm of the walk loop in `Validator::CheckDirBlocks`:
epoch check, sharding-structure hash check against the tracked hash, then
the co-signature against the signing shard `shards.at(shard_id)` (the C++
`.at` throws out of range; the embedding reads an empty committee there,
and every theorem touching the shard lookup stays within range). -/
def processFB (C : Collaborators) (fb : FallbackBlockWShardingStructureM)
    (st : WalkState) : Option WalkState :=
  if fb.fallbackblock.fallbackDSEpochNo ≠ st.prevdsblocknum + 1 then none
  else
    match C.getShardingStructureHash fb.shards with
    | none => none
    | some shardinghash =>
        if shardinghash ≠ st.prevShardingHash then none
        else if ¬ checkBlockCosignature C.multiSigVerify C.aggregatePubKeys
            fb.fallbackblock.cosig (fb.shards.getD fb.fallbackblock.shardId []) then
          none
        else
          some { dsComm := C.updateDSCommitteeAfterFallback
                   fb.fallbackblock.shardId fb.fallbackblock.leaderPubKey
                   fb.fallbackblock.leaderNetworkInfo st.dsComm fb.shards
                 prevdsblocknum := st.prevdsblocknum
                 totalIndex := st.totalIndex + 1
                 prevShardingHash := st.prevShardingHash
                 sideEffects := st.sideEffects ++
                   [SideEffect.addBlockLink st.totalIndex (st.prevdsblocknum + 1)
                      BlockType.FB fb.fallbackblock.blockHash,
                    SideEffect.putFallbackBlock fb.fallbackblock.blockHash
                      (C.serializeFB fb)] }

/-- Dispatch of one directory block on its variant. -/
def processDirBlock (C : Collaborators) (b : DirBlock) (st : WalkState) :
    Option WalkState :=
  match b with
  | DirBlock.DS d => processDS C d st
  | DirBlock.VC v => processVC C v st
  | DirBlock.FB f => processFB C f st

/-- The walk loop of `Validator::CheckDirBlocks`: on the first failing
block it stops, returns `false`, and leaves the state (committee, side
effects) exactly as the accepted blocks left it. -/
def checkDirBlocksAux (C : Collaborators) :
    List DirBlock → WalkState → Bool × WalkState
  | [], st => (true, st)
  | b :: rest, st =>
      match processDirBlock C b st with
      | none => (false, st)
      | some st2 => checkDirBlocksAux C rest st2

/-- `Validator::CheckDirBlocks`.  `lastBlockNum` and `lastShardingHash`
stand for the header fields of `m_dsBlockChain.GetLastBlock()`, read once
at entry; the returned state's `dsComm` is what the C++ assigns to the
output parameter `newDSComm`. -/
def checkDirBlocks (C : Collaborators) (dirBlocks : List DirBlock)
    (initDsComm : List (PubKey × Peer)) (indexNum : Nat)
    (lastBlockNum : Nat) (lastShardingHash : Hash) : Bool × WalkState :=
  checkDirBlocksAux C dirBlocks
    { dsComm := initDsComm
      prevdsblocknum := lastBlockNum
      totalIndex := indexNum
      prevShardingHash := lastShardingHash
      sideEffects := [] }

/-- Sequential processing of a block list with no failure allowed:
`some st` exactly when every block is accepted in order. -/
def processList (C : Collaborators) :
    List DirBlock → WalkState → Option WalkState
  | [], st => some st
  | b :: rest, st =>
      match processDirBlock C b st with
      | none => none
      | some st2 => processList C rest st2

/-- The verdicts of `Validator::CheckTxBlocks`. -/
inductive TxBlockValidationMsg where
  | VALID
  | INVALID
  | STALEDSINFO
deriving DecidableEq

/-- The transaction-block header fields `Validator::CheckTxBlocks` reads:
`GetDSBlockNum`, `GetPrevHash`, `GetMyHash`, plus the co-signature. -/
structure TxBlockM where
  dsBlockNum : Nat
  prevHash : Hash
  myHash : Hash
  cosig : CoSigData
deriving DecidableEq

/-- A placeholder transaction block, used only as the default of the
out-of-range-safe list reads in theorem statements. -/
def dfltTxBlock : TxBlockM :=
  { dsBlockNum := 0, prevHash := 0, myHash := 0
    cosig := { headerBytes := [], cs1Bytes := [], B1 := [], B2 := [], CS2 := 0 } }

/-- The block-link tuple fields `Validator::CheckTxBlocks` reads:
`BlockLinkIndex::DSINDEX` and `BlockLinkIndex::BLOCKTYPE`. -/
structure BlockLinkM where
  dsindex : Nat
  blocktype : BlockType
deriving DecidableEq

/-- The backwards parent-hash walk of `Validator::CheckTxBlocks`, carrying
the running previous-block hash and returning the hash left after the last
step (`none` on the first mismatch).  `Validator::CheckTxBlocks` runs it
on the blocks before the tip, newest first. -/
def chainWalkH (h : Hash) : List TxBlockM → Option Hash
  | [] => some h
  | b :: rest => if h ≠ b.myHash then none else chainWalkH b.prevHash rest

/-- The adjusted local `latestDSIndex` of `Validator::CheckTxBlocks`: the
link's DS index, decremented once when the link is not a DS link. -/
def latestDSIndexOf (link : BlockLinkM) : Nat :=
  if link.blocktype ≠ BlockType.DS then link.dsindex - 1 else link.dsindex

/-- `Validator::CheckTxBlocks`.  The C++ calls `txBlocks.back()` on the
caller-supplied sequence, which is undefined on an empty vector; the
embedding returns `none` there.  The early return for a non-DS link with
`dsindex = 0` precedes that read, as in the source. -/
def checkTxBlocks (multiSigVerify : List Byte → Sig → PubKey → Bool)
    (aggregatePubKeys : List PubKey → Option PubKey)
    (txBlocks : List TxBlockM) (dsComm : List (PubKey × Peer))
    (latestBlockLink : BlockLinkM) : Option TxBlockValidationMsg :=
  if latestBlockLink.blocktype ≠ BlockType.DS ∧ latestBlockLink.dsindex = 0 then
    some TxBlockValidationMsg.INVALID
  else
    match txBlocks.getLast? with
    | none => none
    | some latestTxBlock =>
        if latestTxBlock.dsBlockNum ≠ latestDSIndexOf latestBlockLink then
          if latestDSIndexOf latestBlockLink > latestTxBlock.dsBlockNum then
            some TxBlockValidationMsg.INVALID
          else some TxBlockValidationMsg.STALEDSINFO
        else if ¬ checkBlockCosignature multiSigVerify aggregatePubKeys
            latestTxBlock.cosig dsComm then
          some TxBlockValidationMsg.INVALID
        else if txBlocks.length < 2 then some TxBlockValidationMsg.VALID
        else
          match chainWalkH latestTxBlock.prevHash txBlocks.dropLast.reverse with
          | none => some TxBlockValidationMsg.INVALID
          | some _ => some TxBlockValidationMsg.VALID

/-- The transaction fields the two admission checks read.  Addresses are
natural numbers with `0` standing for the null address `Address()`. -/
structure TxM where
  version : Nat
  senderPubKey : PubKey
  toAddr : Nat
  amount : Nat
  gasPrice : Nat
  data : List Byte
  signature : Sig
deriving DecidableEq

/-- The receipt state the validator mutates (`SetEpochNum`). -/
structure TransactionReceiptM where
  epochNum : Nat
deriving DecidableEq

/-- The ambient node state and external collaborators the two transaction
admission checks consult: configuration flags, the mediator's fields, the
address derivation (SHA-256 based, external), the shard router, the
Schnorr primitive with the core-field serializer, the account store reads
and the delegated temporary account update (which may further mutate the
receipt it is handed). -/
structure NodeEnv where
  lookupNodeMode : Bool
  chainId : Nat
  unpackA : Nat → Nat
  addressFromPubKey : PubKey → Nat
  dsIdle : Bool
  shardId : Nat
  numShards : Nat
  currentEpochNum : Nat
  lastDSBlockGasPrice : Nat
  getShardIndex : Nat → Nat → Nat
  serializeCoreFields : TxM → List Byte
  verifySchnorr : List Byte → Sig → PubKey → Bool
  accountExists : Nat → Bool
  balanceOf : Nat → Nat
  updateAccountsTemp :
    Nat → Nat → Bool → TxM → TransactionReceiptM → Bool × TransactionReceiptM

/-- `Validator::VerifyTransaction`: Schnorr verification of the serialized
core fields under the sender's public key. -/
def verifyTransaction (env : NodeEnv) (tx : TxM) : Bool :=
  env.verifySchnorr (env.serializeCoreFields tx) tx.signature tx.senderPubKey

/-- `Validator::CheckCreatedTransaction`: lookup-mode guard, chain id,
non-null sender address, account existence, balance, then the epoch stamp
on the receipt followed by the delegated temporary account update.
Returns the verdict together with the resulting receipt state. -/
def checkCreatedTransaction (env : NodeEnv) (tx : TxM)
    (receipt : TransactionReceiptM) : Bool × TransactionReceiptM :=
  if env.lookupNodeMode then (true, receipt)
  else if env.unpackA tx.version ≠ env.chainId then (false, receipt)
  else
    let fromAddr := env.addressFromPubKey tx.senderPubKey
    if fromAddr = 0 then (false, receipt)
    else if ¬ env.accountExists fromAddr then (false, receipt)
    else if env.balanceOf fromAddr < tx.amount then (false, receipt)
    else
      env.updateAccountsTemp env.currentEpochNum env.numShards (!env.dsIdle) tx
        { receipt with epochNum := env.currentEpochNum }

/-- The checks `Validator::CheckCreatedTransactionFromLookup` performs
after the shard-routing section: gas-price floor, Schnorr signature,
account existence, balance. -/
def lookupTailChecks (env : NodeEnv) (tx : TxM) (fromAddr : Nat) : Bool :=
  if tx.gasPrice < env.lastDSBlockGasPrice then false
  else if ¬ verifyTransaction env tx then false
  else if ¬ env.accountExists fromAddr then false
  else if env.balanceOf fromAddr < tx.amount then false
  else true

/-- `Validator::CheckCreatedTransactionFromLookup`: lookup-mode guard,
chain id, non-null sender address, then — only when the directory service
is idle — the two shard-routing checks, then the tail checks. -/
def checkCreatedTransactionFromLookup (env : NodeEnv) (tx : TxM) : Bool :=
  if env.lookupNodeMode then true
  else if env.unpackA tx.version ≠ env.chainId then false
  else
    let fromAddr := env.addressFromPubKey tx.senderPubKey
    if fromAddr = 0 then false
    else if env.dsIdle then
      let correctShardFrom := env.getShardIndex fromAddr env.numShards
      if correctShardFrom ≠ env.shardId then false
      else if tx.data.length > 0 ∧ tx.toAddr ≠ 0 ∧
          env.getShardIndex tx.toAddr env.numShards ≠ correctShardFrom then false
      else lookupTailChecks env tx fromAddr
    else lookupTailChecks env tx fromAddr

/-! ### Concrete instantiations of the external collaborators, used on
concrete inputs -/

/-- A multi-signature verifier that accepts everything. -/
def vTrue : List Byte → Sig → PubKey → Bool := fun _ _ _ => true

/-- A key aggregator that always succeeds. -/
def aggSome : List PubKey → Option PubKey := fun _ => some 0

/-- A six-member committee. -/
def comm6 : List (PubKey × Peer) := [(1, 1), (2, 2), (3, 3), (4, 4), (5, 5), (6, 6)]

/-- A co-signature envelope whose round-two bitmap has all six bits set. -/
def cosig6 : CoSigData :=
  { headerBytes := [], cs1Bytes := [], B1 := []
    B2 := [true, true, true, true, true, true], CS2 := 0 }

/-- A three-member committee. -/
def comm3 : List (PubKey × Peer) := [(1, 1), (2, 2), (3, 3)]

/-- A co-signature envelope whose round-two bitmap has all three bits set. -/
def cosig3 : CoSigData :=
  { headerBytes := [], cs1Bytes := [], B1 := []
    B2 := [true, true, true], CS2 := 0 }

/-! ### Helper lemmas about the co-signature check -/

/-- Propositional characterization of `checkBlockCosignature`: sizes agree,
the selected-key count equals the consensus count exactly, aggregation
succeeds, and the multi-signature verifies. -/
lemma checkBlockCosignature_eq_true_iff
    (verify : List Byte → Sig → PubKey → Bool)
    (agg : List PubKey → Option PubKey) (block : CoSigData)
    (comm : List (PubKey × Peer)) :
    checkBlockCosignature verify agg block comm = true ↔
      (comm.length = block.B2.length ∧
       (selectKeys comm block.B2).length = NumForConsensus block.B2.length ∧
       ∃ a, agg (selectKeys comm block.B2) = some a ∧
         verify (cosigMessage block) block.CS2 a = true) := by
  simp only [checkBlockCosignature]
  by_cases hlen : comm.length = block.B2.length
  · rw [if_neg (by simp [hlen])]
    by_cases hcount :
        (selectKeys comm block.B2).length = NumForConsensus block.B2.length
    · rw [if_neg (by simp [hcount])]
      cases hagg : agg (selectKeys comm block.B2) with
      | none => simp [hlen, hcount, hagg]
      | some a =>
          simp only [hagg]
          constructor
          · intro hv
            exact ⟨hlen, hcount, a, rfl, hv⟩
          · rintro ⟨-, -, a2, ha2, hv⟩
            cases Option.some.inj ha2
            exact hv
    · rw [if_pos (by simpa using hcount)]
      simp [hcount]
  · rw [if_pos (by simpa using hlen)]
    simp [hlen]

/-- Under equal lengths, the number of selected keys is the number of set
bits of the bitmap. -/
lemma selectKeys_length (comm : List (PubKey × Peer)) (bits : List Bool)
    (h : comm.length = bits.length) :
    (selectKeys comm bits).length = bits.count true := by
  induction comm generalizing bits with
  | nil =>
      cases bits with
      | nil => simp [selectKeys]
      | cons b bs => simp at h
  | cons kv kvs ih =>
      cases bits with
      | nil => simp at h
      | cons b bs =>
          have hlen : kvs.length = bs.length := by simpa using h
          cases b with
          | false => simp [selectKeys, ih bs hlen, List.count_cons]
          | true => simp [selectKeys, ih bs hlen, List.count_cons]

/-- Clearing a set bit decreases the count of set bits by exactly one. -/
lemma count_true_set_false (bits : List Bool) (i : Nat)
    (h : bits.get? i = some true) :
    (bits.set i false).count true + 1 = bits.count true := by
  induction bits generalizing i with
  | nil => simp at h
  | cons b bs ih =>
      cases i with
      | zero =>
          have hb : b = true := by simpa using h
          subst hb
          simp [List.count_cons]
      | succ n =>
          have hn : bs.get? n = some true := by simpa using h
          have := ih n hn
          simp only [List.set, List.count_cons]
          omega

/-! ### C1: the co-signature verdict -/

/-- C1, counterexample: the claimed verdict characterization fails.  With a
six-member roster, all six round-two bits set, an always-succeeding
aggregator and an always-accepting verifier, the right-hand side of the
claimed equivalence holds (sizes agree, 6 signers ≥ threshold 5, the
multi-signature verifies), yet `CheckBlockCosignature` rejects, because
the source compares the signer count with `NumForConsensus` for equality,
not with `≥`. -/
theorem c1_claim_counterexample :
    ¬ (checkBlockCosignature vTrue aggSome cosig6 comm6 = true ↔
       (comm6.length = cosig6.B2.length ∧
        NumForConsensus cosig6.B2.length ≤ (selectKeys comm6 cosig6.B2).length ∧
        ∃ a, aggSome (selectKeys comm6 cosig6.B2) = some a ∧
          vTrue (cosigMessage cosig6) cosig6.CS2 a = true)) := by
  intro h
  have h2 : checkBlockCosignature vTrue aggSome cosig6 comm6 = true :=
    h.mpr ⟨by decide, by decide, 0, rfl, rfl⟩
  have h3 : checkBlockCosignature vTrue aggSome cosig6 comm6 = false := by decide
  rw [h3] at h2
  exact Bool.false_ne_true h2

/-- C1, amended: for every block and committee roster,
`CheckBlockCosignature` returns true if and only if the roster size equals
the length of the B2 bitmap, the number of roster positions at which B2 is
set is EXACTLY `NumForConsensus(|B2|)` (not merely at least it), and the
multi-signature verification of CS2 over the canonical buffer
`serialize(header) ++ serialize(CS1) ++ encode_bitmap(B1)` against the
(successfully formed) aggregate of the selected keys succeeds. -/
theorem c1_amended_cosig_iff (verify : List Byte → Sig → PubKey → Bool)
    (agg : List PubKey → Option PubKey) (block : CoSigData)
    (comm : List (PubKey × Peer)) :
    checkBlockCosignature verify agg block comm = true ↔
      (comm.length = block.B2.length ∧
       (selectKeys comm block.B2).length = NumForConsensus block.B2.length ∧
       ∃ a, agg (selectKeys comm block.B2) = some a ∧
         verify (cosigMessage block) block.CS2 a = true) :=
  checkBlockCosignature_eq_true_iff verify agg block comm

/-! ### C2: threshold monotonicity -/

/-- C2, counterexample: clearing one set bit of B2 CAN turn the verdict
from false to true.  With six of six bits set the check rejects (6 differs
from the consensus count 5); clearing bit 0 leaves exactly 5 set bits and
the check then accepts. -/
theorem c2_claim_counterexample :
    cosig6.B2.get? 0 = some true ∧
    checkBlockCosignature vTrue aggSome cosig6 comm6 = false ∧
    checkBlockCosignature vTrue aggSome
      { cosig6 with B2 := cosig6.B2.set 0 false } comm6 = true := by
  decide

/-- C2, amended: clearing one set bit of B2 always turns a true verdict
into false (the signer count drops below the exact consensus count); the
claimed converse direction — never false to true — fails, as the
counterexample shows. -/
theorem c2_amended_clear_bit_false (verify : List Byte → Sig → PubKey → Bool)
    (agg : List PubKey → Option PubKey) (block : CoSigData)
    (comm : List (PubKey × Peer)) (i : Nat)
    (hbit : block.B2.get? i = some true)
    (htrue : checkBlockCosignature verify agg block comm = true) :
    checkBlockCosignature verify agg
      { block with B2 := block.B2.set i false } comm = false := by
  obtain ⟨hlen, hcount, -⟩ :=
    (checkBlockCosignature_eq_true_iff verify agg block comm).mp htrue
  rw [← Bool.not_eq_true]
  intro habs
  obtain ⟨-, hcount2, -⟩ :=
    (checkBlockCosignature_eq_true_iff verify agg
      { block with B2 := block.B2.set i false } comm).mp habs
  dsimp only at hcount2
  have hset : (block.B2.set i false).length = block.B2.length := by simp
  have hc1 : (selectKeys comm block.B2).length = block.B2.count true :=
    selectKeys_length comm block.B2 hlen
  have hc2 : (selectKeys comm (block.B2.set i false)).length
      = (block.B2.set i false).count true :=
    selectKeys_length comm (block.B2.set i false) (hlen.trans hset.symm)
  have hdec := count_true_set_false block.B2 i hbit
  rw [hc1] at hcount
  rw [hc2, hset] at hcount2
  omega

/-- Witness for the amended C2 at a concrete input: a three-member roster
with all three bits set is accepted; clearing bit 0 makes it rejected. -/
theorem c2_witness_clear_bit :
    cosig3.B2.get? 0 = some true ∧
    checkBlockCosignature vTrue aggSome cosig3 comm3 = true ∧
    checkBlockCosignature vTrue aggSome
      { cosig3 with B2 := cosig3.B2.set 0 false } comm3 = false :=
  ⟨by decide, by decide,
    c2_amended_clear_bit_false vTrue aggSome cosig3 comm3 0 (by decide) (by decide)⟩

/-! ### Helper lemmas about the directory-block walk -/

/-- An accepted block only appends to the side-effect log. -/
lemma processDirBlock_sideEffects (C : Collaborators) (b : DirBlock)
    (st st' : WalkState) (h : processDirBlock C b st = some st') :
    ∃ l, st'.sideEffects = st.sideEffects ++ l := by
  cases b with
  | DS d =>
      simp only [processDirBlock, processDS] at h
      split at h
      · cases h
      · split at h
        · cases h
        · injection h with h2
          subst h2
          exact ⟨_, rfl⟩
  | VC v =>
      simp only [processDirBlock, processVC] at h
      split at h
      · cases h
      · split at h
        · cases h
        · injection h with h2
          subst h2
          exact ⟨_, rfl⟩
  | FB f =>
      simp only [processDirBlock, processFB] at h
      split at h
      · cases h
      · split at h
        · cases h
        · split at h
          · cases h
          · split at h
            · cases h
            · injection h with h2
              subst h2
              exact ⟨_, rfl⟩

/-- A fully accepted block list only appends to the side-effect log. -/
lemma processList_sideEffects (C : Collaborators) (blocks : List DirBlock) :
    ∀ st st', processList C blocks st = some st' →
      ∃ l, st'.sideEffects = st.sideEffects ++ l := by
  induction blocks with
  | nil =>
      intro st st' h
      injection h with h2
      subst h2
      exact ⟨[], (List.append_nil _).symm⟩
  | cons b rest ih =>
      intro st st' h
      simp only [processList] at h
      cases hb : processDirBlock C b st with
      | none => rw [hb] at h; cases h
      | some st2 =>
          rw [hb] at h
          obtain ⟨l1, hl1⟩ := processDirBlock_sideEffects C b st st2 hb
          obtain ⟨l2, hl2⟩ := ih st2 st' h
          exact ⟨l1 ++ l2, by rw [hl2, hl1, List.append_assoc]⟩

/-- The walk loop stops at the first failing block, leaving the state the
accepted head produced. -/
lemma checkDirBlocksAux_first_failure (C : Collaborators)
    (blocks : List DirBlock) (st : WalkState) :
    ((checkDirBlocksAux C blocks st).1 = true →
       processList C blocks st = some (checkDirBlocksAux C blocks st).2) ∧
    ((checkDirBlocksAux C blocks st).1 = false →
       ∃ acc b rest, blocks = acc ++ b :: rest ∧
         processList C acc st = some (checkDirBlocksAux C blocks st).2 ∧
         processDirBlock C b (checkDirBlocksAux C blocks st).2 = none ∧
         ∃ l, (checkDirBlocksAux C blocks st).2.sideEffects
           = st.sideEffects ++ l) := by
  induction blocks generalizing st with
  | nil =>
      constructor
      · intro _
        rfl
      · intro h
        simp [checkDirBlocksAux] at h
  | cons b rest ih =>
      cases hb : processDirBlock C b st with
      | none =>
          have haux : checkDirBlocksAux C (b :: rest) st = (false, st) := by
            simp [checkDirBlocksAux, hb]
          constructor
          · intro h
            rw [haux] at h
            cases h
          · intro _
            rw [haux]
            exact ⟨[], b, rest, rfl, rfl, hb, [], (List.append_nil _).symm⟩
      | some st2 =>
          have haux : checkDirBlocksAux C (b :: rest) st
              = checkDirBlocksAux C rest st2 := by
            simp [checkDirBlocksAux, hb]
          obtain ⟨ih1, ih2⟩ := ih st2
          constructor
          · intro h
            rw [haux] at h ⊢
            simp only [processList, hb]
            exact ih1 h
          · intro h
            rw [haux] at h
            obtain ⟨acc, bf, rst, heq, hpl, hfail, l, hl⟩ := ih2 h
            refine ⟨b :: acc, bf, rst, by rw [heq, List.cons_append], ?_, ?_, ?_⟩
            · rw [haux]
              simp only [processList, hb]
              exact hpl
            · rw [haux]
              exact hfail
            · obtain ⟨l1, hl1⟩ := processDirBlock_sideEffects C b st st2 hb
              exact ⟨l1 ++ l, by rw [haux, hl, hl1, List.append_assoc]⟩

/-- C3: `CheckDirBlocks` processes its blocks strictly in order and stops
at the first failing block, returning false.  On success the returned
state — committee (the output roster `newDSComm`), side-effect log — is
the fold of every block; on failure the input splits as
`accepted ++ failing :: rest`, the returned state is exactly what the
accepted head committed (side effects not undone, roster evolved by
exactly those blocks), and the failing block rejects from that state. -/
theorem c3_walk_first_failure (C : Collaborators) (dirBlocks : List DirBlock)
    (initDsComm : List (PubKey × Peer))
    (indexNum lastBlockNum lastShardingHash : Nat) :
    ((checkDirBlocks C dirBlocks initDsComm indexNum lastBlockNum
        lastShardingHash).1 = true →
       processList C dirBlocks
         { dsComm := initDsComm, prevdsblocknum := lastBlockNum
           totalIndex := indexNum, prevShardingHash := lastShardingHash
           sideEffects := [] }
         = some (checkDirBlocks C dirBlocks initDsComm indexNum lastBlockNum
             lastShardingHash).2) ∧
    ((checkDirBlocks C dirBlocks initDsComm indexNum lastBlockNum
        lastShardingHash).1 = false →
       ∃ acc b rest, dirBlocks = acc ++ b :: rest ∧
         processList C acc
           { dsComm := initDsComm, prevdsblocknum := lastBlockNum
             totalIndex := indexNum, prevShardingHash := lastShardingHash
             sideEffects := [] }
           = some (checkDirBlocks C dirBlocks initDsComm indexNum
               lastBlockNum lastShardingHash).2 ∧
         processDirBlock C b
           (checkDirBlocks C dirBlocks initDsComm indexNum lastBlockNum
             lastShardingHash).2 = none) :=
  ⟨(checkDirBlocksAux_first_failure C dirBlocks _).1,
   fun h =>
     match (checkDirBlocksAux_first_failure C dirBlocks _).2 h with
     | ⟨acc, b, rest, heq, hpl, hfail, _⟩ => ⟨acc, b, rest, heq, hpl, hfail⟩⟩

/-! ### Concrete walker inputs for the witnesses -/

/-- Concrete collaborators: accepting MultiSig primitives, identity
committee mutations, constant hasher and empty serializers. -/
def collabTest : Collaborators :=
  { multiSigVerify := vTrue
    aggregatePubKeys := aggSome
    updateDSCommitteeComposition := fun c _ => c
    updateDSCommitteeAfterVC := fun _ c => c
    updateDSCommitteeAfterFallback := fun _ _ _ c _ => c
    getShardingStructureHash := fun _ => some 0
    serializeDS := fun _ => []
    serializeVC := fun _ => []
    serializeFB := fun _ => [] }

/-- A DS block numbered 1 with a passing co-signature. -/
def cDsOk : DSBlockM :=
  { blockNum := 1, shardingHash := 7, blockHash := 100, cosig := cosig3 }

/-- A DS block numbered 3: out of sequence after block 1. -/
def cDsGap : DSBlockM :=
  { blockNum := 3, shardingHash := 8, blockHash := 101, cosig := cosig3 }

/-- A VC block for DS epoch 1 with a passing co-signature. -/
def vcA : VCBlockM :=
  { viewChangeDSEpochNo := 1, blockHash := 50, cosig := cosig3 }

/-- The initial walk state: committee `comm3`, DS tip 0, link index 5,
sharding hash 9, empty side-effect log. -/
def walkSt0 : WalkState :=
  { dsComm := comm3, prevdsblocknum := 0, totalIndex := 5
    prevShardingHash := 9, sideEffects := [] }

/-- Witness for C3: the spec's boundary scenario — DS blocks numbered 1
and 3 presented after tip 0.  The walk returns false at the second block,
with the first block's side effects already committed in the returned
state. -/
theorem c3_witness_gap :
    (checkDirBlocks collabTest [DirBlock.DS cDsOk, DirBlock.DS cDsGap]
        comm3 5 0 9).1 = false ∧
    ∃ acc b rest,
      ([DirBlock.DS cDsOk, DirBlock.DS cDsGap] : List DirBlock)
        = acc ++ b :: rest ∧
      processList collabTest acc
        { dsComm := comm3, prevdsblocknum := 0, totalIndex := 5
          prevShardingHash := 9, sideEffects := [] }
        = some (checkDirBlocks collabTest
            [DirBlock.DS cDsOk, DirBlock.DS cDsGap] comm3 5 0 9).2 ∧
      processDirBlock collabTest b
        (checkDirBlocks collabTest
            [DirBlock.DS cDsOk, DirBlock.DS cDsGap] comm3 5 0 9).2 = none :=
  ⟨rfl, (c3_walk_first_failure collabTest
      [DirBlock.DS cDsOk, DirBlock.DS cDsGap] comm3 5 0 9).2 rfl⟩

/-- C8: an accepted VC block leaves the tracked DS block number and the
tracked sharding hash unchanged and increments the link index by one; an
accepted fallback block likewise; only an accepted DS block advances the
DS number (by one) and the sharding hash (to its header's hash). -/
theorem c8_vc_frame (C : Collaborators) (st : WalkState) :
    (∀ v st', processDirBlock C (DirBlock.VC v) st = some st' →
       st'.prevdsblocknum = st.prevdsblocknum ∧
       st'.prevShardingHash = st.prevShardingHash ∧
       st'.totalIndex = st.totalIndex + 1) ∧
    (∀ f st', processDirBlock C (DirBlock.FB f) st = some st' →
       st'.prevdsblocknum = st.prevdsblocknum ∧
       st'.prevShardingHash = st.prevShardingHash ∧
       st'.totalIndex = st.totalIndex + 1) ∧
    (∀ d st', processDirBlock C (DirBlock.DS d) st = some st' →
       st'.prevdsblocknum = st.prevdsblocknum + 1 ∧
       st'.prevShardingHash = d.shardingHash ∧
       st'.totalIndex = st.totalIndex + 1) := by
  refine ⟨?_, ?_, ?_⟩
  · intro v st' h
    simp only [processDirBlock, processVC] at h
    split at h
    · cases h
    · split at h
      · cases h
      · injection h with h2
        subst h2
        exact ⟨rfl, rfl, rfl⟩
  · intro f st' h
    simp only [processDirBlock, processFB] at h
    split at h
    · cases h
    · split at h
      · cases h
      · split at h
        · cases h
        · split at h
          · cases h
          · injection h with h2
            subst h2
            exact ⟨rfl, rfl, rfl⟩
  · intro d st' h
    simp only [processDirBlock, processDS] at h
    split at h
    · cases h
    · split at h
      · cases h
      · injection h with h2
        subst h2
        exact ⟨rfl, rfl, rfl⟩

/-- The state an accepted `vcA` leaves behind from `walkSt0`. -/
def vcSt1 : WalkState :=
  { dsComm := comm3, prevdsblocknum := 0, totalIndex := 6
    prevShardingHash := 9
    sideEffects := [SideEffect.addBlockLink 5 1 BlockType.VC 50,
                    SideEffect.putVCBlock 50 []] }

/-- Witness for C8 at a concrete input: the VC block `vcA` is accepted
from `walkSt0` and leaves DS number 0 and sharding hash 9 unchanged while
the link index moves from 5 to 6. -/
theorem c8_witness_vc :
    processDirBlock collabTest (DirBlock.VC vcA) walkSt0 = some vcSt1 ∧
    (vcSt1.prevdsblocknum = walkSt0.prevdsblocknum ∧
     vcSt1.prevShardingHash = walkSt0.prevShardingHash ∧
     vcSt1.totalIndex = walkSt0.totalIndex + 1) :=
  ⟨rfl, (c8_vc_frame collabTest walkSt0).1 vcA vcSt1 rfl⟩

/-! ### C4: the fallback arm of the walk -/

/-- C4: during the walk, a fallback block whose bundled sharding structure
hashes to something other than the tracked `prevShardingHash` is rejected
for every choice of the MultiSig primitives — its co-signature is never
consulted; and when the hash matches (and the epoch check passes), the
block is accepted exactly when its co-signature verifies against the
signing shard `shards[shardId]`, not against the DS committee roster. -/
theorem c4_fallback_sharding_gate (C : Collaborators)
    (fb : FallbackBlockWShardingStructureM) (st : WalkState) :
    (∀ (C2 : Collaborators) (h : Hash),
       C2.getShardingStructureHash fb.shards = some h →
       h ≠ st.prevShardingHash →
       processDirBlock C2 (DirBlock.FB fb) st = none) ∧
    (C.getShardingStructureHash fb.shards = some st.prevShardingHash →
     fb.fallbackblock.fallbackDSEpochNo = st.prevdsblocknum + 1 →
     ((processDirBlock C (DirBlock.FB fb) st).isSome = true ↔
        checkBlockCosignature C.multiSigVerify C.aggregatePubKeys
          fb.fallbackblock.cosig
          (fb.shards.getD fb.fallbackblock.shardId []) = true)) := by
  constructor
  · intro C2 h hhash hne
    simp only [processDirBlock, processFB]
    split
    · rfl
    · simp only [hhash]
      rw [if_pos hne]
  · intro hhash hepoch
    simp only [processDirBlock, processFB, hhash, hepoch]
    cases hc : checkBlockCosignature C.multiSigVerify C.aggregatePubKeys
        fb.fallbackblock.cosig (fb.shards.getD fb.fallbackblock.shardId []) with
    | false => simp [hc]
    | true => simp [hc]

/-- A fallback block for DS epoch 1, signed by shard 0 of a one-shard
structure whose committee is `comm3`. -/
def fbGood : FallbackBlockWShardingStructureM :=
  { fallbackblock :=
      { fallbackDSEpochNo := 1, shardId := 0, leaderPubKey := 1
        leaderNetworkInfo := 1, blockHash := 60, cosig := cosig3 }
    shards := [comm3] }

/-- Collaborators whose sharding hasher returns the tracked hash 9 of
`walkSt0`. -/
def collabFB : Collaborators :=
  { collabTest with getShardingStructureHash := fun _ => some 9 }

/-- Witness for C4 at concrete inputs: under `collabTest` the bundled
shards hash to 0 ≠ 9 and the fallback block is rejected outright; under
`collabFB` the hash matches and acceptance coincides with the shard-0
co-signature verdict. -/
theorem c4_witness_fallback :
    processDirBlock collabTest (DirBlock.FB fbGood) walkSt0 = none ∧
    ((processDirBlock collabFB (DirBlock.FB fbGood) walkSt0).isSome = true ↔
       checkBlockCosignature collabFB.multiSigVerify collabFB.aggregatePubKeys
         fbGood.fallbackblock.cosig
         (fbGood.shards.getD fbGood.fallbackblock.shardId []) = true) :=
  ⟨(c4_fallback_sharding_gate collabFB fbGood walkSt0).1 collabTest 0 rfl
      (by decide),
   (c4_fallback_sharding_gate collabFB fbGood walkSt0).2 rfl rfl⟩

/-! ### C5: the expected DS epoch of a tx-block sequence -/

/-- C5: `CheckTxBlocks` computes the expected DS epoch as the link's
dsIndex for a DS link, rejects outright (Invalid) for a non-DS link with
dsIndex 0, and uses dsIndex − 1 otherwise; when the tip's dsBlockNum
differs from the expected epoch the verdict is Invalid if the expected
epoch is greater and StaleDSInfo otherwise — in all these cases for every
choice of the MultiSig primitives, so without verifying the tip's
co-signature. -/
theorem c5_txblocks_expected_ds (txBlocks : List TxBlockM)
    (dsComm : List (PubKey × Peer)) (link : BlockLinkM) :
    (link.blocktype ≠ BlockType.DS → link.dsindex = 0 →
       ∀ v a, checkTxBlocks v a txBlocks dsComm link
         = some TxBlockValidationMsg.INVALID) ∧
    (∀ tip, txBlocks.getLast? = some tip →
       ¬ (link.blocktype ≠ BlockType.DS ∧ link.dsindex = 0) →
       tip.dsBlockNum ≠ latestDSIndexOf link →
       ∀ v a, checkTxBlocks v a txBlocks dsComm link
         = some (if latestDSIndexOf link > tip.dsBlockNum
                 then TxBlockValidationMsg.INVALID
                 else TxBlockValidationMsg.STALEDSINFO)) := by
  constructor
  · intro hbt hdz v a
    simp only [checkTxBlocks]
    rw [if_pos ⟨hbt, hdz⟩]
  · intro tip htip hne hdsnum v a
    simp only [checkTxBlocks]
    rw [if_neg hne]
    simp only [htip]
    rw [if_pos hdsnum]
    split <;> rfl

/-- A stale transaction block under DS epoch 2. -/
def txbStale : TxBlockM :=
  { dsBlockNum := 2, prevHash := 0, myHash := 0, cosig := cosig3 }

/-- A non-DS block link with dsIndex 0. -/
def linkVC0 : BlockLinkM := { dsindex := 0, blocktype := BlockType.VC }

/-- A non-DS block link with dsIndex 5: the expected DS epoch is 4. -/
def linkVC5 : BlockLinkM := { dsindex := 5, blocktype := BlockType.VC }

/-- Witness for C5 at concrete inputs: a VC link with dsIndex 0 makes the
check Invalid outright, and a tip under DS epoch 2 against expected epoch
4 is Invalid (stale tip). -/
theorem c5_witness_stale :
    checkTxBlocks vTrue aggSome [] [] linkVC0
      = some TxBlockValidationMsg.INVALID ∧
    checkTxBlocks vTrue aggSome [txbStale] comm3 linkVC5
      = some (if latestDSIndexOf linkVC5 > txbStale.dsBlockNum
              then TxBlockValidationMsg.INVALID
              else TxBlockValidationMsg.STALEDSINFO) :=
  ⟨(c5_txblocks_expected_ds [] [] linkVC0).1 (by decide) rfl vTrue aggSome,
   (c5_txblocks_expected_ds [txbStale] comm3 linkVC5).2 txbStale rfl
     (by decide) (by decide) vTrue aggSome⟩

/-! ### C6: the backwards parent-hash walk -/

/-- The hash-threading walk distributes over list append. -/
lemma chainWalkH_append (l1 l2 : List TxBlockM) :
    ∀ h, chainWalkH h (l1 ++ l2)
      = (chainWalkH h l1).bind fun h2 => chainWalkH h2 l2 := by
  induction l1 with
  | nil => intro h; rfl
  | cons b rest ih =>
      intro h
      simp only [List.cons_append, chainWalkH]
      by_cases hb : h = b.myHash
      · rw [if_neg (not_not_intro hb), if_neg (not_not_intro hb)]
        exact ih b.prevHash
      · rw [if_pos hb, if_pos hb]
        rfl

/-- Walking the reverse of `m` from hash `h` succeeds only when adjacent
blocks of `m` are hash-chained, the last block of `m` hashes to `h`, and
the surviving hash is the first block's previous-hash. -/
lemma chainWalkH_reverse_adjacent (m : List TxBlockM) :
    ∀ h h2, chainWalkH h m.reverse = some h2 →
      (∀ j, j + 1 < m.length →
         (m.getD j dfltTxBlock).myHash
           = (m.getD (j + 1) dfltTxBlock).prevHash) ∧
      (∀ b, m.getLast? = some b → b.myHash = h) ∧
      (∀ b, m.head? = some b → h2 = b.prevHash) := by
  induction m with
  | nil =>
      intro h h2 _
      refine ⟨fun j hj => ?_, fun b hb => ?_, fun b hb => ?_⟩
      · simp at hj
      · simp at hb
      · simp at hb
  | cons a m' ih =>
      intro h h2 hw
      rw [List.reverse_cons, chainWalkH_append] at hw
      cases hw1 : chainWalkH h m'.reverse with
      | none => rw [hw1] at hw; cases hw
      | some h1 =>
          rw [hw1, Option.some_bind] at hw
          by_cases hh1 : h1 = a.myHash
          · have hh2 : h2 = a.prevHash := by
              simp only [chainWalkH, if_neg (not_not_intro hh1)] at hw
              exact (Option.some.inj hw).symm
            obtain ⟨hadj', hlast', hhead'⟩ := ih h h1 hw1
            refine ⟨?_, ?_, ?_⟩
            · intro j hj
              cases j with
              | zero =>
                  cases m' with
                  | nil => simp at hj
                  | cons c t =>
                      have hc : h1 = c.prevHash := hhead' c rfl
                      simp only [List.getD_cons_zero, List.getD_cons_succ]
                      rw [← hh1, hc]
              | succ k =>
                  have hk : k + 1 < m'.length := by
                    simpa [Nat.succ_lt_succ_iff] using hj
                  simpa [List.getD_cons_succ] using hadj' k hk
            · intro b hb
              cases m' with
              | nil =>
                  have hba : a = b := by simpa using hb
                  have hh : h = h1 := by simpa [chainWalkH] using hw1
                  rw [← hba, ← hh1]
                  exact hh.symm
              | cons c t =>
                  rw [List.getLast?_cons_cons] at hb
                  exact hlast' b hb
            · intro b hb
              have hba : a = b := by simpa using hb
              rw [← hba, hh2]
          · simp only [chainWalkH, if_pos hh1] at hw
            cases hw

/-- Reading a non-empty list at its last position. -/
lemma getD_length_sub_one (m : List TxBlockM) (hm : m ≠ []) :
    m.getD (m.length - 1) dfltTxBlock = m.getLast hm := by
  have h0 : 0 < m.length := List.length_pos.mpr hm
  rw [List.getLast_eq_getElem m hm,
    List.getD_eq_getElem m dfltTxBlock (show m.length - 1 < m.length by omega)]

/-- C6: if `CheckTxBlocks` returns Valid, then every adjacent pair of
blocks in the sequence is hash-chained: the earlier block's self-hash
equals the later block's previous-hash.  A sequence of fewer than two
blocks satisfies this vacuously; any mismatch during the backwards walk
would have produced Invalid instead. -/
theorem c6_txchain_law (v : List Byte → Sig → PubKey → Bool)
    (a : List PubKey → Option PubKey) (txBlocks : List TxBlockM)
    (dsComm : List (PubKey × Peer)) (link : BlockLinkM) (i : Nat)
    (hvalid : checkTxBlocks v a txBlocks dsComm link
      = some TxBlockValidationMsg.VALID)
    (hi : i + 1 < txBlocks.length) :
    (txBlocks.getD i dfltTxBlock).myHash
      = (txBlocks.getD (i + 1) dfltTxBlock).prevHash := by
  simp only [checkTxBlocks] at hvalid
  split at hvalid
  · simp at hvalid
  · split at hvalid
    · cases hvalid
    · rename_i tip htip
      split at hvalid
      · split at hvalid <;> simp at hvalid
      · split at hvalid
        · simp at hvalid
        · split at hvalid
          · rename_i hlen2
            exact absurd hi (by omega)
          · rename_i hlen2
            split at hvalid
            · simp at hvalid
            · rename_i h2 hw
              have hne : txBlocks ≠ [] := by
                intro h0
                rw [h0] at htip
                simp at htip
              have hlen : ¬ txBlocks.length < 2 := hlen2
              obtain ⟨hadj, hlastm, -⟩ :=
                chainWalkH_reverse_adjacent txBlocks.dropLast tip.prevHash
                  h2 hw
              have hmlen : txBlocks.dropLast.length = txBlocks.length - 1 :=
                List.length_dropLast txBlocks
              have hgl : txBlocks.getLast hne = tip := by
                rw [List.getLast?_eq_getLast_of_ne_nil hne] at htip
                exact Option.some.inj htip
              have hsplit : txBlocks.dropLast ++ [tip] = txBlocks := by
                rw [← hgl]
                exact List.dropLast_append_getLast hne
              by_cases hcase : i + 1 < txBlocks.dropLast.length
              · rw [← hsplit,
                  List.getD_append _ _ dfltTxBlock i (by omega),
                  List.getD_append _ _ dfltTxBlock (i + 1) hcase]
                exact hadj i hcase
              · have hieq : i + 1 = txBlocks.dropLast.length := by omega
                have hmne : txBlocks.dropLast ≠ [] :=
                  List.length_pos.mp (by omega)
                rw [← hsplit,
                  List.getD_append _ _ dfltTxBlock i (by omega),
                  List.getD_append_right _ _ dfltTxBlock (i + 1) (by omega)]
                rw [hieq, Nat.sub_self, List.getD_cons_zero]
                have hidx : i = txBlocks.dropLast.length - 1 := by omega
                rw [hidx, getD_length_sub_one txBlocks.dropLast hmne]
                exact hlastm (txBlocks.dropLast.getLast hmne)
                  (List.getLast?_eq_getLast_of_ne_nil hmne)

/-- Three hash-chained transaction blocks under DS epoch 4. -/
def txbA : TxBlockM :=
  { dsBlockNum := 4, prevHash := 0, myHash := 11, cosig := cosig3 }

/-- Second block of the chained triple. -/
def txbB : TxBlockM :=
  { dsBlockNum := 4, prevHash := 11, myHash := 12, cosig := cosig3 }

/-- Tip block of the chained triple. -/
def txbC : TxBlockM :=
  { dsBlockNum := 4, prevHash := 12, myHash := 13, cosig := cosig3 }

/-- A DS block link with dsIndex 4. -/
def linkDS4 : BlockLinkM := { dsindex := 4, blocktype := BlockType.DS }

/-- Witness for C6 at a concrete input: a chained three-block sequence is
Valid, and the chain law holds for its first adjacent pair. -/
theorem c6_witness_chain :
    checkTxBlocks vTrue aggSome [txbA, txbB, txbC] comm3 linkDS4
      = some TxBlockValidationMsg.VALID ∧
    ([txbA, txbB, txbC].getD 0 dfltTxBlock).myHash
      = ([txbA, txbB, txbC].getD 1 dfltTxBlock).prevHash :=
  ⟨by decide,
   c6_txchain_law vTrue aggSome [txbA, txbB, txbC] comm3 linkDS4 0
     (by decide) (by decide)⟩

/-! ### C7: shard routing only when the directory service is idle -/

/-- C7: `CheckCreatedTransactionFromLookup` applies the shard-routing
checks exactly when the directory service is idle.  When not idle the
verdict is just the tail checks (gas floor, signature, existence,
balance), with no routing consulted; when idle, a misrouted sender is
rejected, a non-empty-payload transaction to a non-null address in a
different shard than the sender is rejected, and otherwise the verdict is
again the tail checks. -/
theorem c7_shard_routing_iff_idle (env : NodeEnv) (tx : TxM)
    (hlm : env.lookupNodeMode = false)
    (hchain : env.unpackA tx.version = env.chainId)
    (haddr : env.addressFromPubKey tx.senderPubKey ≠ 0) :
    (env.dsIdle = false →
       checkCreatedTransactionFromLookup env tx
         = lookupTailChecks env tx (env.addressFromPubKey tx.senderPubKey)) ∧
    (env.dsIdle = true →
       (env.getShardIndex (env.addressFromPubKey tx.senderPubKey) env.numShards
           ≠ env.shardId →
          checkCreatedTransactionFromLookup env tx = false) ∧
       (env.getShardIndex (env.addressFromPubKey tx.senderPubKey) env.numShards
           = env.shardId →
        tx.data.length > 0 → tx.toAddr ≠ 0 →
        env.getShardIndex tx.toAddr env.numShards
            ≠ env.getShardIndex (env.addressFromPubKey tx.senderPubKey)
                env.numShards →
          checkCreatedTransactionFromLookup env tx = false) ∧
       (env.getShardIndex (env.addressFromPubKey tx.senderPubKey) env.numShards
           = env.shardId →
        ¬ (tx.data.length > 0 ∧ tx.toAddr ≠ 0 ∧
           env.getShardIndex tx.toAddr env.numShards
             ≠ env.getShardIndex (env.addressFromPubKey tx.senderPubKey)
                 env.numShards) →
          checkCreatedTransactionFromLookup env tx
            = lookupTailChecks env tx
                (env.addressFromPubKey tx.senderPubKey))) := by
  constructor
  · intro hidle
    simp [checkCreatedTransactionFromLookup, hlm, hchain, haddr, hidle]
  · intro hidle
    refine ⟨?_, ?_, ?_⟩
    · intro hmis
      simp [checkCreatedTransactionFromLookup, hlm, hchain, haddr, hidle, hmis]
    · intro hrout hdata hto hcross
      have hcross2 : env.getShardIndex tx.toAddr env.numShards ≠ env.shardId :=
        fun h => hcross (h.trans hrout.symm)
      simp [checkCreatedTransactionFromLookup, hlm, hchain, haddr, hidle,
        hrout, hdata, hto, hcross, hcross2]
    · intro hrout hnot
      simp only [checkCreatedTransactionFromLookup, hlm, Bool.false_eq_true,
        if_false]
      rw [if_neg (not_not_intro hchain), if_neg haddr, if_pos hidle,
        if_neg (not_not_intro hrout), if_neg hnot]

/-! ### C9 and C10: the locally-assembled transaction check -/

/-- C9: on a lookup node both admission checks trivially return true for
every transaction, leaving the receipt untouched and consulting none of
the chain-id, address, shard, gas, signature or balance checks. -/
theorem c9_lookup_node_trivially_true (env : NodeEnv)
    (hlm : env.lookupNodeMode = true) :
    (∀ tx receipt, checkCreatedTransaction env tx receipt = (true, receipt)) ∧
    (∀ tx, checkCreatedTransactionFromLookup env tx = true) := by
  constructor
  · intro tx receipt
    simp [checkCreatedTransaction, hlm]
  · intro tx
    simp [checkCreatedTransactionFromLookup, hlm]

/-- C10: once the chain-id, non-null-address, existence and balance checks
pass, `CheckCreatedTransaction` is exactly the delegated temporary update
applied to the receipt already stamped with the current epoch — so on the
path where that delegated update returns false, the operation returns
false with the receipt nevertheless mutated. -/
theorem c10_receipt_stamped_before_update (env : NodeEnv) (tx : TxM)
    (receipt : TransactionReceiptM)
    (hlm : env.lookupNodeMode = false)
    (hchain : env.unpackA tx.version = env.chainId)
    (haddr : env.addressFromPubKey tx.senderPubKey ≠ 0)
    (hex : env.accountExists (env.addressFromPubKey tx.senderPubKey) = true)
    (hbal : ¬ env.balanceOf (env.addressFromPubKey tx.senderPubKey)
        < tx.amount) :
    checkCreatedTransaction env tx receipt
      = env.updateAccountsTemp env.currentEpochNum env.numShards (!env.dsIdle)
          tx { receipt with epochNum := env.currentEpochNum } ∧
    ∀ r', env.updateAccountsTemp env.currentEpochNum env.numShards
          (!env.dsIdle) tx { receipt with epochNum := env.currentEpochNum }
        = (false, r') →
      checkCreatedTransaction env tx receipt = (false, r') := by
  have hmain : checkCreatedTransaction env tx receipt
      = env.updateAccountsTemp env.currentEpochNum env.numShards (!env.dsIdle)
          tx { receipt with epochNum := env.currentEpochNum } := by
    simp [checkCreatedTransaction, hlm, hchain, haddr, hex, hbal]
  exact ⟨hmain, fun r' hr => hmain.trans hr⟩

/-- A concrete node environment: shard node (not lookup), chain id 1,
identity address derivation, idle directory service, shard 2 of 4,
current epoch 10, accepting crypto and account collaborators. -/
def envBase : NodeEnv :=
  { lookupNodeMode := false
    chainId := 1
    unpackA := fun v => v
    addressFromPubKey := fun pk => pk
    dsIdle := true
    shardId := 2
    numShards := 4
    currentEpochNum := 10
    lastDSBlockGasPrice := 1
    getShardIndex := fun addr n => addr % n
    serializeCoreFields := fun _ => []
    verifySchnorr := vTrue
    accountExists := fun _ => true
    balanceOf := fun _ => 1000
    updateAccountsTemp := fun _ _ _ _ r => (true, r) }

/-- A transaction from sender key 5 (address 5, shard 1 of 4). -/
def tx7 : TxM :=
  { version := 1, senderPubKey := 5, toAddr := 9, amount := 10
    gasPrice := 5, data := [1], signature := 0 }

/-- An all-zero receipt. -/
def receipt0 : TransactionReceiptM := { epochNum := 0 }

/-- Witness for C7 at concrete inputs: under the idle environment the
sender routed to shard 1 is rejected by this shard-2 node, and with the
directory service not idle the same transaction goes straight to the tail
checks. -/
theorem c7_witness_routing :
    checkCreatedTransactionFromLookup envBase tx7 = false ∧
    checkCreatedTransactionFromLookup { envBase with dsIdle := false } tx7
      = lookupTailChecks { envBase with dsIdle := false } tx7
          ({ envBase with dsIdle := false }.addressFromPubKey
            tx7.senderPubKey) :=
  ⟨((c7_shard_routing_iff_idle envBase tx7 rfl rfl (by decide)).2 rfl).1
      (by decide),
   (c7_shard_routing_iff_idle { envBase with dsIdle := false } tx7 rfl rfl
      (by decide)).1 rfl⟩

/-- Witness for C9 at concrete inputs. -/
theorem c9_witness_lookup :
    checkCreatedTransaction { envBase with lookupNodeMode := true } tx7
      receipt0 = (true, receipt0) ∧
    checkCreatedTransactionFromLookup { envBase with lookupNodeMode := true }
      tx7 = true :=
  ⟨(c9_lookup_node_trivially_true { envBase with lookupNodeMode := true }
      rfl).1 tx7 receipt0,
   (c9_lookup_node_trivially_true { envBase with lookupNodeMode := true }
      rfl).2 tx7⟩

/-- An environment whose delegated account update always rejects. -/
def envRej : NodeEnv :=
  { envBase with updateAccountsTemp := fun _ _ _ _ r => (false, r) }

/-- Witness for C10 at concrete inputs: with a rejecting delegated update
the check returns false, yet the returned receipt carries epoch 10. -/
theorem c10_witness_stamp :
    checkCreatedTransaction envRej tx7 receipt0
      = envRej.updateAccountsTemp envRej.currentEpochNum envRej.numShards
          (!envRej.dsIdle) tx7
          { receipt0 with epochNum := envRej.currentEpochNum } ∧
    checkCreatedTransaction envRej tx7 receipt0
      = (false, { epochNum := 10 }) :=
  ⟨(c10_receipt_stamped_before_update envRej tx7 receipt0 rfl rfl (by decide)
      rfl (by decide)).1,
   rfl⟩

end ZilliqaValidator
